import Mathlib

/-
Verification of the AIML pattern-matching dialogue engine
(engine/aiml_engine.py: class AIMLEngine and its helpers).

The Python source is shallowly embedded below.  Conventions:

* Python strings are Lean `String`; character classes (`\w`, `\s`, `str.upper`)
  are modelled over ASCII, which covers every input in the specification.
* Python exceptions that can escape the engine are modelled with the
  `Out` result type (`err`); Python's unbounded recursion through
  `AIMLEngine.respond` is modelled with an explicit fuel parameter, where
  `Out.diverge` means "the computation did not complete within the given
  recursion budget".  A genuine run of the source corresponds to the value
  obtained for every sufficiently large budget; a computation that yields
  `diverge` for every budget corresponds to infinite recursion in Python.
* Standard-library services that the engine merely calls out to
  (xml.etree.ElementTree.fromstring, json.loads, eval, random.choice) are
  parameters of the evaluation environment `Env`; the template trees the
  parser would produce are given explicitly where concrete templates are
  evaluated.
-/

namespace AIML

/-- Python `\s` (ASCII range), used by `str.split()`, `str.strip()` and the
`\s` character class of the constructed regex. -/
def isPyWhite (c : Char) : Bool :=
  c = ' ' || c = '\t' || c = '\n' || c = '\x0b' || c = '\x0c' || c = '\r'

/-- Python `\w` (ASCII range): alphanumeric or underscore. -/
def isWordChar (c : Char) : Bool :=
  c.isAlphanum || c = '_'

/-- Python `str.upper()` (ASCII model). -/
def sUpper (s : String) : String :=
  String.mk (s.toList.map Char.toUpper)

/-- Python `str.lower()` (ASCII model). -/
def sLower (s : String) : String :=
  String.mk (s.toList.map Char.toLower)

/-- Python `str.strip()` with no argument: remove leading and trailing
whitespace. -/
def sTrim (s : String) : String :=
  String.mk (((s.toList.dropWhile (fun c => isPyWhite c)).reverse.dropWhile
    (fun c => isPyWhite c)).reverse)

/-- Helper for `pySplit`: accumulate the current word (reversed) while
scanning. -/
def pySplitAux : List Char → List Char → List String
  | [], acc => if acc = [] then [] else [String.mk acc.reverse]
  | c :: cs, acc =>
    if isPyWhite c then
      if acc = [] then pySplitAux cs []
      else String.mk acc.reverse :: pySplitAux cs []
    else pySplitAux cs (c :: acc)

/-- Python `str.split()` with no separator: split on whitespace runs,
producing no empty pieces. -/
def pySplit (s : String) : List String :=
  pySplitAux s.toList []

/-- Python `' '.join(words)`. -/
def joinSp : List String → String
  | [] => ""
  | [w] => w
  | w :: ws => w ++ " " ++ joinSp ws

/-- AIMLEngine._normalize: uppercase, strip all characters outside
`[\w\s*_#^]`, collapse whitespace runs to single spaces. -/
def normalize (text : String) : String :=
  let up := sUpper text
  let filtered := String.mk (up.toList.filter
    (fun c => isWordChar c || isPyWhite c || c = '*' || c = '#' || c = '^'))
  joinSp (pySplit filtered)

/-- One piece of the regex `AIMLEngine._pattern_match` builds: an escaped
literal word, or a capturing group.  `group true` is the lazy `(.+?)`
(pattern tokens `*` and `_`), `group false` the lazy `(.*?)` (tokens `#`
and `^`).  The pieces are joined with `\s+` and wrapped in `^\s*` ... `\s*$`. -/
inductive RPart where
  | lit (w : String)
  | group (minOne : Bool)
deriving Repr, DecidableEq

/-- The per-token additions to `score` in AIMLEngine._pattern_match. -/
def token_score (t : String) : Nat :=
  if t = "*" then 1
  else if t = "_" then 2
  else if t = "#" then 1
  else if t = "^" then 3
  else 10

/-- The per-token regex piece in AIMLEngine._pattern_match. -/
def token_part (t : String) : RPart :=
  if t = "*" then .group true
  else if t = "_" then .group true
  else if t = "#" then .group false
  else if t = "^" then .group false
  else .lit t

/-- Number of leading whitespace characters: the maximal span `\s*` or `\s+`
can take at this position. -/
def leadWS : List Char → Nat
  | [] => 0
  | c :: cs => if isPyWhite c then leadWS cs + 1 else 0

/-- Remainder must be matched by the trailing `\s*$`.  Python's `$` also
matches just before a final newline, but `\s*` consumes that newline anyway,
so plain "all whitespace" is an exact model. -/
def tailOk (cs : List Char) : Bool :=
  cs.all (fun c => isPyWhite c)

/-- Case-insensitive literal match (re.IGNORECASE over re.escape'd text):
strip `w` from the front of `cs`, comparing characters case-folded. -/
def stripCI : List Char → List Char → Option (List Char)
  | [], cs => some cs
  | _ :: _, [] => none
  | p :: ps, c :: cs => if p.toUpper = c.toUpper then stripCI ps cs else none

/-- Backtracking for a greedy `\s+` separator: try `j` whitespace characters
for `j = j₀, j₀-1, ..., 1` (longest first, as the regex engine does), passing
the rest of the input to the continuation `f`. -/
def trySep (f : List Char → Option (List (List Char))) :
    Nat → List Char → Option (List (List Char))
  | 0, _ => none
  | j + 1, cs =>
    match f (cs.drop (j + 1)) with
    | some gs => some gs
    | none => trySep f j cs

/-- Backtracking for a lazy group `(.+?)` / `(.*?)`: try a captured prefix of
length `n = 0, 1, 2, ...` (shortest first, as a lazy quantifier does; `n = 0`
is skipped when `minOne`), requiring every captured character to differ from
`'\n'` (the `.` class), and passing the rest to the continuation `after`.
`left` counts the candidates still to try. -/
def tryGroup (after : List Char → Option (List (List Char))) (minOne : Bool)
    (cs : List Char) : Nat → Nat → Option (List (List Char))
  | _, 0 => none
  | n, left + 1 =>
    if (minOne && n == 0) || !((cs.take n).all (fun c => c ≠ '\n')) then
      tryGroup after minOne cs (n + 1) left
    else
      match after (cs.drop n) with
      | some gs => some (cs.take n :: gs)
      | none => tryGroup after minOne cs (n + 1) left

/-- Match the sequence of regex pieces (joined by `\s+`, followed by the
trailing `\s*$`) against `cs`, returning the captured groups chosen by the
regex engine's backtracking order. -/
def matchParts : List RPart → List Char → Option (List (List Char))
  | [], cs => if tailOk cs then some [] else none
  | p :: rest, cs =>
    let after : List Char → Option (List (List Char)) :=
      match rest with
      | [] => fun cs2 => if tailOk cs2 then some [] else none
      | _ :: _ => fun cs2 => trySep (fun u => matchParts rest u) (leadWS cs2) cs2
    match p with
    | .lit w =>
      match stripCI w.toList cs with
      | some cs2 => after cs2
      | none => none
    | .group minOne => tryGroup after minOne cs 0 (cs.length + 1)

/-- AIMLEngine._pattern_match: tokenize the pattern, build the regex pieces
and the score, and run the anchored regex `^\s*` P₁ `\s+` ... `\s+` Pₙ `\s*$`
against the input (the leading `^\s*` is greedy, longest first).  Returns
(captured groups, score) on success and (None, 0) on failure; the source's
`except re.error` can never fire, since `re.escape` yields well-formed
regexes, so it has no counterpart here. -/
def pattern_match (pattern input : String) : Option (List String) × Nat :=
  let toks := pySplit pattern
  let parts := toks.map token_part
  let score := (toks.map token_score).sum
  let cs := input.toList
  let m := leadWS cs
  match (List.range (m + 1)).findSome?
      (fun i => matchParts parts (cs.drop (m - i))) with
  | some gs => (some (gs.map (fun g => String.mk g)), score)
  | none => (none, 0)

/-- The Category dataclass: an AIML pattern-template pair. -/
structure Category where
  pattern : String
  template : String
  that : Option String := none
  topic : Option String := none
deriving Repr, DecidableEq, Inhabited

/-- The PatternMatch dataclass: result of pattern matching. -/
structure PatternMatch where
  matched : Bool
  stars : List String := []
  category : Option Category := none
deriving Repr, DecidableEq, Inhabited

/-- The ActionResult dataclass.  `inputs` (a JSON object in the source) is
modelled as a string-to-string association list, and `learn` (a dict with
keys "pattern" and "workflow") as the corresponding pair; `choices` entries
are (value, label) pairs. -/
structure ActionResult where
  text : String := ""
  action : Option String := none
  workflow : Option String := none
  inputs : Option (List (String × String)) := none
  choices : Option (List (String × String)) := none
  confirm : Option String := none
  learn : Option (String × String) := none
deriving Repr, DecidableEq, Inhabited

/-- The mutable per-instance state of AIMLEngine: categories, variables,
topic, that, history. -/
structure EngState where
  categories : List Category := []
  -- `vars` is the source's `self.variables` (Lean reserves that word).
  vars : List (String × String) := []
  topic : String := "*"
  that : String := ""
  history : List (String × String) := []
deriving Repr, DecidableEq, Inhabited

/-- Python `self.variables.get(name)`: dictionary lookup. -/
def lookupVar (m : List (String × String)) (k : String) : Option String :=
  (m.find? (fun kv => kv.1 = k)).map (fun kv => kv.2)

/-- Python `self.variables[name] = value`: dictionary overwrite. -/
def dictSet (m : List (String × String)) (k v : String) :
    List (String × String) :=
  (k, v) :: m.filter (fun kv => kv.1 ≠ k)

/-- Truthiness of an optional string (Python `if category.that:` and
friends): false for None and for the empty string. -/
def optTruthy : Option String → Bool
  | none => false
  | some t => t ≠ ""

/-- One step of the best-match loop in AIMLEngine._match_pattern: skip the
category if its topic or that filter fails, otherwise try the pattern and
keep it when the score strictly beats the best so far. -/
def mp_step (st : EngState) (input : String) (acc : PatternMatch × Int)
    (c : Category) : PatternMatch × Int :=
  if c.topic ≠ some "*" ∧ c.topic ≠ some st.topic then acc
  else if optTruthy c.that = true ∧ c.that ≠ some st.that then acc
  else
    match pattern_match c.pattern input with
    | (some stars, score) =>
      if (score : Int) > acc.2 then (⟨true, stars, some c⟩, (score : Int))
      else acc
    | (none, _) => acc

/-- AIMLEngine._match_pattern: fold the step over the category store,
starting from (no match, best score -1). -/
def match_pattern (st : EngState) (input : String) : PatternMatch :=
  (st.categories.foldl (mp_step st input) (⟨false, [], none⟩, -1)).1

/-- An XML element as ElementTree presents it to the engine: tag, attributes,
leading text, children, and the text that follows the element (its tail). -/
inductive XElement where
  | mk (tag : String) (attrs : List (String × String)) (text : Option String)
      (children : List XElement) (tail : Option String)
deriving Repr, Inhabited

def XElement.tag : XElement → String
  | .mk t _ _ _ _ => t

def XElement.attrs : XElement → List (String × String)
  | .mk _ a _ _ _ => a

def XElement.text : XElement → Option String
  | .mk _ _ t _ _ => t

def XElement.children : XElement → List XElement
  | .mk _ _ _ ch _ => ch

def XElement.tail : XElement → Option String
  | .mk _ _ _ _ t => t

/-- Python `element.get(key)`. -/
def XElement.attr (e : XElement) (k : String) : Option String :=
  (e.attrs.find? (fun kv => kv.1 = k)).map (fun kv => kv.2)

/-- Python `element.get(key, default)`. -/
def XElement.attrD (e : XElement) (k d : String) : String :=
  (e.attr k).getD d

/-- Python `int(s)` for decimal ASCII strings: strip whitespace, optional
sign, one or more digits; None models the ValueError raised otherwise. -/
def digitsVal (ds : List Char) : Nat :=
  ds.foldl (fun a c => a * 10 + (c.toNat - 48)) 0

def pyInt (s : String) : Option Int :=
  match (sTrim s).toList with
  | '+' :: ds =>
    if ds ≠ [] ∧ ds.all Char.isDigit then some (digitsVal ds) else none
  | '-' :: ds =>
    if ds ≠ [] ∧ ds.all Char.isDigit then some (-(digitsVal ds : Int)) else none
  | ds =>
    if ds ≠ [] ∧ ds.all Char.isDigit then some (digitsVal ds) else none

/-- Python `str.title()` (ASCII model): uppercase each letter that follows a
non-letter, lowercase the other letters. -/
def pyTitle (s : String) : String :=
  String.mk ((s.toList.foldl
    (fun (acc : List Char × Bool) ch =>
      if ch.isAlpha then
        ((if acc.2 then ch.toLower else ch.toUpper) :: acc.1, true)
      else (ch :: acc.1, false))
    ([], false)).1.reverse)

/-- The positional-capture substitution loop of the action branch of
AIMLEngine._process_element: for each capture i, replace
`<star index="i+1"/>` by the capture and `<star/>` by the first capture. -/
def starSubst (stars : List String) (s0 : String) : String :=
  (List.range stars.length).foldl
    (fun s i =>
      let s := s.replace ("<star index=\x22" ++ toString (i + 1) ++ "\x22/>")
        (stars.getD i "")
      s.replace "<star/>" (stars.headD "")) s0

/-- Outcome of an engine computation.  `err` models a Python exception
escaping the computation; `diverge` means the computation did not complete
within the recursion budget (so a result that is `diverge` for every budget
corresponds to infinite recursion in the source). -/
inductive PyErr where
  | valueError
deriving Repr, DecidableEq

inductive Out (α : Type) where
  | diverge
  | err (e : PyErr)
  | ok (a : α)
deriving Repr

def Out.bind {α β : Type} : Out α → (α → Out β) → Out β
  | .diverge, _ => .diverge
  | .err e, _ => .err e
  | .ok a, f => f a

instance : Monad Out where
  pure := .ok
  bind := Out.bind

/-- The services the engine obtains from the Python standard library:
`xmlParse` is xml.etree.ElementTree.fromstring (None models ParseError),
`jsonParse` is json.loads restricted to string-valued objects (None models
JSONDecodeError), `pyEval` is the guarded `eval` of the compute branch
(already converted by `str`; None models any exception, which the source
catches), and `choose` resolves `random.choice` (the chosen index is taken
modulo the list length). -/
structure Env where
  xmlParse : String → Option XElement
  jsonParse : String → Option (List (String × String))
  pyEval : String → Option String
  choose : List XElement → Nat

/-- The type of the recursive re-entry point AIMLEngine.respond as seen from
template evaluation: current state and input text to (optional result, new
state). -/
abbrev Resp := EngState → String → Out (Option ActionResult × EngState)

/-- Python `if element.text: output.append(element.text)`. -/
def textInit : Option String → List String
  | some t => if t ≠ "" then [t] else []
  | none => []

/-- Python `if child.tail: output.append(child.tail)`. -/
def tailAppend (out : List String) : Option String → List String
  | some t => if t ≠ "" then out ++ [t] else out
  | none => out

/-- The per-branch check of the multi-branch condition form: an li passes
when it has no value attribute, or when the variable named by its name
attribute (defaulting to the enclosing condition's name) currently equals
its value attribute. -/
def condPass (vars : List (String × String)) (outerName : Option String)
    (li : XElement) : Bool :=
  match li.attr "value" with
  | none => true
  | some v =>
    (match li.attr "name" with
     | some k => lookupVar vars k
     | none =>
       match outerName with
       | some k => lookupVar vars k
       | none => none) == some v

mutual

/-- AIMLEngine._get_text: `"".join(element.itertext())` — the element's text
followed by each child's recursive text and tail. -/
def get_text : XElement → String
  | .mk _ _ txt ch _ => txt.getD "" ++ get_texts ch

def get_texts : List XElement → String
  | [] => ""
  | c :: cs => get_text c ++ c.tail.getD "" ++ get_texts cs

end

/-- The body of AIMLEngine._process_element, written as a recursion over the
child list (the source's `for child in element:` loop).  The value carried is
(output pieces, engine state, result object); `resp` is the engine's own
respond method, used by the srai branch; `stars` is the capture list.  The
fuel argument models the Python call stack: one unit is consumed per loop
step and per nested `_process_element` call, and `Out.diverge` reports that
the budget was exhausted (the caller supplies a budget that is large enough
for any actual element tree, so `diverge` can only arise from `resp`). -/
def process_children (env : Env) (resp : Resp) (stars : List String) :
    Nat → List XElement → List String → EngState → ActionResult →
    Out (List String × EngState × ActionResult)
  | _, [], out, st, res => .ok (out, st, res)
  | 0, _ :: _, _, _, _ => .diverge
  | fuel + 1, c :: cs, out, st, res =>
    -- `self._process_element(child, stars, result)` on an element `x`:
    -- recurse over x's text and children, then join and strip.
    let pe : XElement → EngState → ActionResult →
        Out (String × EngState × ActionResult) :=
      fun x stx resx =>
        match x with
        | .mk _ _ txt ch _ =>
          (process_children env resp stars fuel ch (textInit txt) stx resx).bind
            (fun r => .ok (sTrim (String.join r.1), r.2.1, r.2.2))
    let tag := sLower c.tag
    let step : Out (List String × EngState × ActionResult) :=
      if tag = "star" then
        match pyInt (c.attrD "index" "1") with
        | none => .err .valueError
        | some ix =>
          let index : Int := ix - 1
          .ok (if 0 ≤ index ∧ index < (stars.length : Int) then
                 out ++ [stars.getD index.toNat ""]
               else out, st, res)
      else if tag = "get" then
        .ok (out ++ [(lookupVar st.vars (c.attrD "name" "")).getD ""],
             st, res)
      else if tag = "set" then
        (pe c st res).bind (fun r =>
          .ok (out ++ [r.1],
               { r.2.1 with
                 vars := dictSet r.2.1.vars (c.attrD "name" "") r.1 },
               r.2.2))
      else if tag = "think" then
        (pe c st res).bind (fun r => .ok (out, r.2.1, r.2.2))
      else if tag = "random" then
        let items := c.children.filter (fun e => e.tag = "li")
        if items.isEmpty then .ok (out, st, res)
        else
          (pe (items.getD (env.choose items % items.length) c) st res).bind
            (fun r => .ok (out ++ [r.1], r.2.1, r.2.2))
      else if tag = "condition" then
        let name := c.attr "name"
        let value := c.attr "value"
        if optTruthy name = true ∧ optTruthy value = true then
          if lookupVar st.vars (name.getD "") = some (value.getD "") then
            (pe c st res).bind (fun r => .ok (out ++ [r.1], r.2.1, r.2.2))
          else .ok (out, st, res)
        else
          match (c.children.filter (fun e => e.tag = "li")).find?
              (fun li => condPass st.vars name li) with
          | some li => (pe li st res).bind
              (fun r => .ok (out ++ [r.1], r.2.1, r.2.2))
          | none => .ok (out, st, res)
      else if tag = "srai" then
        (pe c st res).bind (fun r =>
          (resp r.2.1 r.1).bind (fun sr =>
            match sr.1 with
            | some ar => .ok (out ++ [ar.text], sr.2, r.2.2)
            | none => .ok (out, sr.2, r.2.2)))
      else if tag = "uppercase" then
        (pe c st res).bind (fun r => .ok (out ++ [sUpper r.1], r.2.1, r.2.2))
      else if tag = "lowercase" then
        (pe c st res).bind (fun r => .ok (out ++ [sLower r.1], r.2.1, r.2.2))
      else if tag = "formal" then
        (pe c st res).bind (fun r => .ok (out ++ [pyTitle r.1], r.2.1, r.2.2))
      else if tag = "action" then
        let workflow := c.attr "workflow"
        let istr := starSubst stars (c.attrD "inputs" "\x7b\x7d")
        let inputs := (env.jsonParse istr).getD []
        let res1 := { res with action := some "workflow",
                               workflow := workflow, inputs := some inputs }
        (pe c st res1).bind (fun r => .ok (out ++ [r.1], r.2.1, r.2.2))
      else if tag = "choice" then
        let opts0 := (c.children.filter (fun e => e.tag = "option")).map
          (fun o => (o.attrD "value" "", get_text o))
        let opts := if opts0 = [] then
            ((get_text c).splitOn "|").foldr
              (fun o acc =>
                let o := sTrim o
                if o ≠ "" then (sLower o, o) :: acc else acc) []
          else opts0
        (pe c st { res with choices := some opts }).bind
          (fun r => .ok (out ++ [r.1], r.2.1, r.2.2))
      else if tag = "confirm" then
        (pe c st res).bind (fun r =>
          .ok (out, r.2.1,
               { r.2.2 with confirm := some r.1, action := some "confirm" }))
      else if tag = "llm" then
        (pe c st { res with action := some "llm" }).bind
          (fun r => .ok (out ++ ["[LLM: " ++ r.1 ++ "]"], r.2.1, r.2.2))
      else if tag = "learn-action" then
        let p1 := (List.range stars.length).foldl
          (fun s i =>
            s.replace ("<star index=\x22" ++ toString (i + 1) ++ "\x22/>") "*")
          (c.attrD "pattern" "")
        .ok (out, st,
             { res with learn := some (p1, c.attrD "workflow" ""),
                        action := some "learn" })
      else if tag = "compute" then
        (pe c st res).bind (fun r =>
          .ok (out ++ [match env.pyEval r.1 with
                       | some v => v
                       | none => r.1], r.2.1, r.2.2))
      else
        (pe c st res).bind (fun r => .ok (out ++ [r.1], r.2.1, r.2.2))
    step.bind (fun r =>
      process_children env resp stars fuel cs (tailAppend r.1 c.tail)
        r.2.1 r.2.2)

/-- AIMLEngine._process_element on a whole element: element text first, then
the child loop, then `"".join(output).strip()`. -/
def process_element (env : Env) (resp : Resp) (stars : List String)
    (fuel : Nat) (e : XElement) (st : EngState) (res : ActionResult) :
    Out (String × EngState × ActionResult) :=
  match e with
  | .mk _ _ txt ch _ =>
    (process_children env resp stars fuel ch (textInit txt) st res).bind
      (fun r => .ok (sTrim (String.join r.1), r.2.1, r.2.2))

mutual

/-- Size of an element tree, used as the evaluation budget: it strictly
exceeds the number of loop steps and nested `_process_element` calls along
any call chain of the walk, so the walk itself never exhausts it. -/
def xsize : XElement → Nat
  | .mk _ _ _ ch _ => 1 + xsizeL ch

def xsizeL : List XElement → Nat
  | [] => 0
  | c :: cs => 1 + xsize c + xsizeL cs

end

/-- AIMLEngine._process_template: parse the template; on ParseError fall back
to the template as literal text, otherwise evaluate the root element into a
fresh result object and store the produced text on it. -/
def process_template (env : Env) (resp : Resp) (template : String)
    (stars : List String) (st : EngState) : Out (ActionResult × EngState) :=
  match env.xmlParse template with
  | none => .ok ({ text := template }, st)
  | some root =>
    (process_element env resp stars (xsize root) root st { text := "" }).bind
      (fun r => .ok ({ r.2.2 with text := r.1 }, r.2.1))

/-- The body of AIMLEngine.respond, with the recursive re-entry point (used
by the srai branch) abstracted as `resp`: normalize, match, evaluate the
winning template, update `that` and the history. -/
def respondStep (env : Env) (resp : Resp) (st : EngState) (input : String) :
    Out (Option ActionResult × EngState) :=
  let normalized := normalize input
  let m := match_pattern st normalized
  if m.matched then
    -- `match.category.template` in the source: the category is always set
    -- when matched is True, so the default of getD is never taken.
    (process_template env resp (m.category.getD default).template m.stars
        st).bind
      (fun r =>
        let result := r.1
        let st1 := r.2
        .ok (some result,
             { st1 with
               that := if result.text ≠ "" then sUpper result.text else "",
               history := st1.history ++ [(input, result.text)] }))
  else .ok (none, st)

/-- AIMLEngine.respond with an explicit recursion budget: each nested
re-entry through a srai tag costs one unit of fuel.  The Python method is
the limit of this family: its value on an input is the common value of
`respond env fuel` for all sufficiently large `fuel`, and a call that
returns `diverge` for every budget recurses forever in Python. -/
def respond (env : Env) : Nat → Resp
  | 0 => fun _ _ => .diverge
  | fuel + 1 => fun st input => respondStep env (respond env fuel) st input

/-
Concrete fixtures used by the theorems below.
-/

/-- An environment whose template parser rejects everything (every template
is treated as literal text), with inert stubs for the other services. -/
def env0 : Env := ⟨fun _ => none, fun _ => none, fun _ => none, fun _ => 0⟩

/-- An inert re-entry point (always "no match"), for statements about
template evaluation that never reach a srai tag. -/
def resp0 : Resp := fun st _ => .ok (none, st)

def stD : EngState := {}

def resD : ActionResult := {}

/-- Template carrying a star tag with a non-numeric index attribute. -/
def badStarTemplate : String := "<template><star index=\x22abc\x22/></template>"

/-- The element tree xml.etree.ElementTree.fromstring produces for
`badStarTemplate` (it is well-formed XML, so parsing succeeds). -/
def badStarTree : XElement :=
  .mk "template" [] none [.mk "star" [("index", "abc")] none [] none] none

def envBadStar : Env :=
  ⟨fun s => if s = badStarTemplate then some badStarTree else none,
   fun _ => none, fun _ => none, fun _ => 0⟩

def stBadStar : EngState :=
  { categories := [⟨"X", badStarTemplate, none, some "*"⟩] }

/-- Template whose srai tag re-submits its category's own trigger text. -/
def loopTemplate : String := "<template><srai>LOOP</srai></template>"

/-- The element tree the XML parser produces for `loopTemplate`. -/
def loopTree : XElement :=
  .mk "template" [] none [.mk "srai" [] (some "LOOP") [] none] none

def envLoop : Env :=
  ⟨fun s => if s = loopTemplate then some loopTree else none,
   fun _ => none, fun _ => none, fun _ => 0⟩

def stLoop : EngState :=
  { categories := [⟨"LOOP", loopTemplate, none, some "*"⟩] }

/-- A store whose only category has the degenerate pattern `#`. -/
def stHash : EngState := { categories := [⟨"#", "HI", none, some "*"⟩] }

/-- A store whose only category is the scenario-C pattern `* OR *`. -/
def stOr : EngState := { categories := [⟨"* OR *", "t", none, some "*"⟩] }

/-
General lemmas.
-/

theorem Out.bind_diverge {α β : Type} {a : Out α} {k : α → Out β}
    (h : a = .diverge) : Out.bind a k = .diverge := by
  rw [h]; rfl

/-- On the self-redirecting store, respond never completes on the
re-submitted trigger text, whatever the recursion budget. -/
theorem respond_loop_aux :
    ∀ fuel, respond envLoop fuel stLoop "LOOP" = .diverge := by
  intro fuel
  induction fuel with
  | zero => rfl
  | succ fuel ih =>
    apply Out.bind_diverge
    apply Out.bind_diverge
    apply Out.bind_diverge
    apply Out.bind_diverge
    apply Out.bind_diverge
    exact ih

/-
Claims C1 to C4.
-/

/-- C1: the spec says no exception escapes respond and that a bad tag
attribute such as a non-numeric star index degrades to plain-text output.
The source contradicts this: with the category (pattern "X", template
containing a star tag whose index attribute is "abc"), the user input "x"
matches, template evaluation runs `int("abc")`, and the resulting ValueError
escapes respond uncaught (only xml ParseError is caught). -/
theorem respond_bad_star_index_raises :
    respond envBadStar 1 stBadStar "x" = .err .valueError := rfl

/-- C2: the spec requires srai self-recursion to be cut off at a fixed depth
bound, with the over-deep sub-evaluation resolving as no match.  The source
has no depth bound at all: on the store whose only category has pattern
"LOOP" and template `srai LOOP`, respond on input "loop" re-enters itself
forever — the fuelled model fails to complete for every recursion budget,
which in Python is an unbounded recursion ending in RecursionError. -/
theorem respond_srai_self_loop_diverges :
    ∀ fuel, respond envLoop fuel stLoop "loop" = .diverge := by
  intro fuel
  cases fuel with
  | zero => rfl
  | succ fuel =>
    apply Out.bind_diverge
    apply Out.bind_diverge
    apply Out.bind_diverge
    apply Out.bind_diverge
    apply Out.bind_diverge
    exact respond_loop_aux fuel

/-- C3: the spec and the source's own docstring say the narrow wildcards
`#` and `^` may capture zero words, so that pattern "# HELLO" should match
input "HELLO" with an empty span.  The constructed regex joins all tokens
with a mandatory `\s+`, so the narrow wildcard still has to be followed by
actual whitespace: the match fails instead. -/
theorem pattern_match_narrow_wildcard_needs_word :
    pattern_match "# HELLO" "HELLO" = (none, 0) ∧
    pattern_match "^ HELLO" "HELLO" = (none, 0) ∧
    pattern_match "HELLO #" "HELLO" = (none, 0) := by
  refine ⟨rfl, rfl, rfl⟩

/-- C4 counterexample: the claim says the broad and narrow high-priority
wildcards score equally; in the source `_` scores 2 while `^` scores 3. -/
theorem token_score_high_not_equal :
    token_score "_" = 2 ∧ token_score "^" = 3 ∧
    ¬ token_score "_" = token_score "^" := by
  refine ⟨rfl, rfl, by decide⟩

/-- C4 (amended): the per-token scores are literal 10, `^` 3, `_` 2, `*` and
`#` both 1; the total order literal above high-priority above low-priority
holds and the two greedy kinds score equally, but the two high-priority
kinds differ, `^` scoring strictly above `_`. -/
theorem token_score_order (t : String)
    (h1 : t ≠ "*") (h2 : t ≠ "_") (h3 : t ≠ "#") (h4 : t ≠ "^") :
    token_score t = 10 ∧ token_score "*" = 1 ∧ token_score "#" = 1 ∧
    token_score "_" = 2 ∧ token_score "^" = 3 ∧
    token_score t > token_score "^" ∧
    token_score "^" > token_score "_" ∧
    token_score "_" > token_score "*" ∧
    token_score "*" = token_score "#" := by
  unfold token_score
  rw [if_neg h1, if_neg h2, if_neg h3, if_neg h4]
  refine ⟨rfl, rfl, rfl, rfl, rfl, by decide, by decide, by decide, rfl⟩

theorem token_score_order_witness :
    token_score "HELLO" = 10 ∧ token_score "*" = 1 ∧ token_score "#" = 1 ∧
    token_score "_" = 2 ∧ token_score "^" = 3 ∧
    token_score "HELLO" > token_score "^" ∧
    token_score "^" > token_score "_" ∧
    token_score "_" > token_score "*" ∧
    token_score "*" = token_score "#" :=
  token_score_order "HELLO" (by decide) (by decide) (by decide) (by decide)

/-
Claim C5: the matcher returns the highest-scoring qualifying category,
ties resolving to the first in store order.
-/

/-- A category passes the topic filter and the preceding-response filter of
AIMLEngine._match_pattern. -/
def eligible (st : EngState) (c : Category) : Prop :=
  ¬(c.topic ≠ some "*" ∧ c.topic ≠ some st.topic) ∧
  ¬(optTruthy c.that = true ∧ c.that ≠ some st.that)

instance (st : EngState) (c : Category) : Decidable (eligible st c) := by
  unfold eligible; infer_instance

/-- A category qualifies for the given input: it passes both filters and its
pattern matches the input. -/
def okCat (st : EngState) (input : String) (c : Category) : Prop :=
  eligible st c ∧ (pattern_match c.pattern input).1.isSome = true

instance (st : EngState) (input : String) (c : Category) :
    Decidable (okCat st input c) := by
  unfold okCat; infer_instance

/-- The score _pattern_match assigns a category's pattern on this input. -/
def catScore (input : String) (c : Category) : Nat :=
  (pattern_match c.pattern input).2

/-- The captures _pattern_match returns for a category's pattern. -/
def catStars (input : String) (c : Category) : List String :=
  (pattern_match c.pattern input).1.getD []

theorem mp_step_win {st : EngState} {input : String} {acc : PatternMatch × Int}
    {c : Category} (h : okCat st input c)
    (hgt : (catScore input c : Int) > acc.2) :
    mp_step st input acc c
      = (⟨true, catStars input c, some c⟩, (catScore input c : Int)) := by
  obtain ⟨⟨ht, hth⟩, hs⟩ := h
  unfold mp_step
  rw [if_neg ht, if_neg hth]
  rcases hpm : pattern_match c.pattern input with ⟨o, sc⟩
  unfold catScore catStars at *
  rw [hpm] at hs hgt ⊢
  cases o with
  | none => simp at hs
  | some stars =>
    have hgt2 : ((sc : Nat) : Int) > acc.2 := hgt
    simp [hgt2]

theorem mp_step_keep {st : EngState} {input : String} {acc : PatternMatch × Int}
    {c : Category} (h : ¬(okCat st input c ∧ (catScore input c : Int) > acc.2)) :
    mp_step st input acc c = acc := by
  unfold mp_step
  by_cases ht : c.topic ≠ some "*" ∧ c.topic ≠ some st.topic
  · rw [if_pos ht]
  rw [if_neg ht]
  by_cases hth : optTruthy c.that = true ∧ c.that ≠ some st.that
  · rw [if_pos hth]
  rw [if_neg hth]
  rcases hpm : pattern_match c.pattern input with ⟨o, sc⟩
  cases o with
  | none => rfl
  | some stars =>
    have hok : okCat st input c := ⟨⟨ht, hth⟩, by rw [hpm]; rfl⟩
    have hle : ¬((catScore input c : Int) > acc.2) := fun hgt => h ⟨hok, hgt⟩
    unfold catScore at hle
    rw [hpm] at hle
    have hle2 : ¬((sc : Nat) : Int) > acc.2 := hle
    simp [hle2]

/-- Characterization of the best-match fold: either nothing in the list
qualifies with a score above the accumulator's and the fold is the identity,
or the fold returns the first qualifying category attaining the maximal
qualifying score above the accumulator's. -/
theorem foldl_mp_char (st : EngState) (input : String) :
    ∀ (l : List Category) (acc : PatternMatch × Int),
      (l.foldl (mp_step st input) acc = acc ∧
        ∀ c ∈ l, okCat st input c → (catScore input c : Int) ≤ acc.2)
      ∨ (∃ pre c post, l = pre ++ c :: post ∧ okCat st input c ∧
          (catScore input c : Int) > acc.2 ∧
          l.foldl (mp_step st input) acc
            = (⟨true, catStars input c, some c⟩, (catScore input c : Int)) ∧
          (∀ c2 ∈ post, okCat st input c2 →
            catScore input c2 ≤ catScore input c) ∧
          (∀ c2 ∈ pre, okCat st input c2 →
            catScore input c2 < catScore input c)) := by
  intro l
  induction l with
  | nil => intro acc; left; exact ⟨rfl, by simp⟩
  | cons c cs ih =>
    intro acc
    by_cases hc : okCat st input c ∧ (catScore input c : Int) > acc.2
    · obtain ⟨hok, hgt⟩ := hc
      have hstep := mp_step_win hok hgt
      rcases ih (⟨true, catStars input c, some c⟩, (catScore input c : Int))
        with ⟨heq, hle⟩ | ⟨pre, c2, post, hsplit, hok2, hgt2, heq, hpost, hpre⟩
      · right
        refine ⟨[], c, cs, rfl, hok, hgt, ?_, ?_, by simp⟩
        · rw [List.foldl_cons, hstep, heq]
        · intro c2 hc2 hokc2
          have h2 : (catScore input c2 : Int) ≤ (catScore input c : Int) :=
            hle c2 hc2 hokc2
          exact_mod_cast h2
      · right
        have hgt2' : (catScore input c2 : Int) > (catScore input c : Int) := hgt2
        refine ⟨c :: pre, c2, post, by rw [hsplit]; rfl, hok2, by omega, ?_,
          hpost, ?_⟩
        · rw [List.foldl_cons, hstep]; exact heq
        · intro x hx hokx
          rcases List.mem_cons.mp hx with rfl | hx2
          · exact_mod_cast hgt2'
          · exact hpre x hx2 hokx
    · have hstep := mp_step_keep hc
      rcases ih acc
        with ⟨heq, hle⟩ | ⟨pre, c2, post, hsplit, hok2, hgt2, heq, hpost, hpre⟩
      · left
        refine ⟨by rw [List.foldl_cons, hstep]; exact heq, ?_⟩
        intro x hx hokx
        rcases List.mem_cons.mp hx with rfl | hx2
        · have : ¬((catScore input x : Int) > acc.2) := fun hgt => hc ⟨hokx, hgt⟩
          omega
        · exact hle x hx2 hokx
      · right
        refine ⟨c :: pre, c2, post, by rw [hsplit]; rfl, hok2, hgt2, ?_,
          hpost, ?_⟩
        · rw [List.foldl_cons, hstep]; exact heq
        · intro x hx hokx
          rcases List.mem_cons.mp hx with rfl | hx2
          · have hxle : ¬((catScore input x : Int) > acc.2) :=
              fun hgt => hc ⟨hokx, hgt⟩
            omega
          · exact hpre x hx2 hokx

/-- C5: whenever the matcher reports a match, the winning category is a
member of the store that passes both filters, carries the captures that
_pattern_match returned for it, scores at least as high as every qualifying
category, and scores strictly higher than every qualifying category that
precedes it in store order; conversely, if any category qualifies, the
matcher reports a match.  This is exactly "highest score wins, ties go to
the first-encountered category". -/
theorem match_pattern_selects_best_first (st : EngState) (input : String) :
    ((match_pattern st input).matched = true →
      ∃ pre c post, st.categories = pre ++ c :: post ∧ okCat st input c ∧
        (match_pattern st input).category = some c ∧
        (match_pattern st input).stars = catStars input c ∧
        (∀ c2 ∈ st.categories, okCat st input c2 →
          catScore input c2 ≤ catScore input c) ∧
        (∀ c2 ∈ pre, okCat st input c2 →
          catScore input c2 < catScore input c))
    ∧ ((∃ c ∈ st.categories, okCat st input c) →
        (match_pattern st input).matched = true) := by
  rcases foldl_mp_char st input st.categories (⟨false, [], none⟩, -1)
    with ⟨heq, hle⟩ | ⟨pre, c, post, hsplit, hok, hgt, heq, hpost, hpre⟩
  · constructor
    · intro hm
      unfold match_pattern at hm
      rw [heq] at hm
      simp at hm
    · rintro ⟨c, hc, hok⟩
      have h2 := hle c hc hok
      have h3 : (0 : Int) ≤ (catScore input c : Int) := Int.natCast_nonneg _
      omega
  · constructor
    · intro _
      refine ⟨pre, c, post, hsplit, hok, ?_, ?_, ?_, hpre⟩
      · unfold match_pattern; rw [heq]
      · unfold match_pattern; rw [heq]
      · intro c2 hc2 hok2
        rw [hsplit] at hc2
        rcases List.mem_append.mp hc2 with hc2 | hc2
        · exact le_of_lt (hpre c2 hc2 hok2)
        · rcases List.mem_cons.mp hc2 with rfl | hc2
          · exact le_refl _
          · exact hpost c2 hc2 hok2
    · intro _
      unfold match_pattern
      rw [heq]

/-- A two-category store in which both categories match the input "A B"
with the same score: the matcher must pick the first. -/
def stTie : EngState :=
  { categories := [⟨"A *", "t1", none, some "*"⟩, ⟨"* B", "t2", none, some "*"⟩] }

theorem match_pattern_selects_best_first_witness :
    (match_pattern stTie "A B").matched = true :=
  (match_pattern_selects_best_first stTie "A B").2
    ⟨⟨"A *", "t1", none, some "*"⟩, by decide, by decide⟩

/-
Claim C6: on success the capture list has exactly one entry per wildcard
token of the pattern.
-/

/-- A regex piece is a capturing group. -/
def isGroupPart : RPart → Bool
  | .group _ => true
  | .lit _ => false

/-- A pattern token is one of the four wildcards. -/
def isWildToken (t : String) : Bool :=
  t == "*" || t == "_" || t == "#" || t == "^"

/-- Number of wildcard tokens of a pattern. -/
def wildcard_count (p : String) : Nat :=
  ((pySplit p).filter (fun t => isWildToken t)).length

theorem trySep_len {m : Nat} {f : List Char → Option (List (List Char))}
    (hf : ∀ cs gs, f cs = some gs → gs.length = m) :
    ∀ (j : Nat) (cs : List Char) (gs : List (List Char)),
      trySep f j cs = some gs → gs.length = m := by
  intro j
  induction j with
  | zero => intro cs gs h; simp [trySep] at h
  | succ j ih =>
    intro cs gs h
    unfold trySep at h
    cases hf2 : f (cs.drop (j + 1)) with
    | some gs2 =>
      rw [hf2] at h
      cases h
      exact hf _ _ hf2
    | none =>
      rw [hf2] at h
      exact ih cs gs h

theorem tryGroup_len {m : Nat} {after : List Char → Option (List (List Char))}
    (hf : ∀ cs gs, after cs = some gs → gs.length = m)
    (minOne : Bool) (cs0 : List Char) :
    ∀ (left n : Nat) (gs : List (List Char)),
      tryGroup after minOne cs0 n left = some gs → gs.length = m + 1 := by
  intro left
  induction left with
  | zero => intro n gs h; simp [tryGroup] at h
  | succ left ih =>
    intro n gs h
    unfold tryGroup at h
    split at h
    · exact ih _ _ h
    · cases hf2 : after (cs0.drop n) with
      | some gs2 =>
        rw [hf2] at h
        cases h
        simp [hf _ _ hf2]
      | none =>
        rw [hf2] at h
        exact ih _ _ h

theorem matchParts_len :
    ∀ (ps : List RPart) (cs : List Char) (gs : List (List Char)),
      matchParts ps cs = some gs →
      gs.length = (ps.filter (fun p => isGroupPart p)).length := by
  intro ps
  induction ps with
  | nil =>
    intro cs gs h
    unfold matchParts at h
    split at h
    · cases h; rfl
    · cases h
  | cons p rest ih =>
    intro cs gs h
    unfold matchParts at h
    have hafter : ∀ cs2 gs2,
        (match rest with
         | [] => fun cs2 => if tailOk cs2 then some [] else none
         | _ :: _ =>
           fun cs2 => trySep (fun u => matchParts rest u) (leadWS cs2) cs2) cs2
          = some gs2 →
        gs2.length = (rest.filter (fun p => isGroupPart p)).length := by
      cases rest with
      | nil =>
        intro cs2 gs2 h2
        simp only at h2
        split at h2
        · cases h2; rfl
        · cases h2
      | cons r rs =>
        intro cs2 gs2 h2
        simp only at h2
        exact trySep_len (fun cs3 gs3 h3 => ih cs3 gs3 h3) _ _ _ h2
    cases p with
    | lit w =>
      simp only at h
      cases hst : stripCI w.toList cs with
      | some cs2 =>
        rw [hst] at h
        have := hafter cs2 gs h
        simpa [isGroupPart] using this
      | none => rw [hst] at h; cases h
    | group minOne =>
      simp only at h
      have := tryGroup_len hafter minOne cs _ _ _ h
      simpa [isGroupPart] using this

/-- Equation for `pattern_match` with the local lets expanded. -/
theorem pattern_match_def (p input : String) :
    pattern_match p input =
      match (List.range (leadWS input.toList + 1)).findSome?
          (fun i => matchParts ((pySplit p).map token_part)
            (input.toList.drop (leadWS input.toList - i))) with
      | some gs => (some (gs.map (fun g => String.mk g)),
          ((pySplit p).map token_score).sum)
      | none => (none, 0) := rfl

theorem findSome?_mem {α β : Type} {f : α → Option β} {b : β} :
    ∀ {l : List α}, l.findSome? f = some b → ∃ a ∈ l, f a = some b := by
  intro l
  induction l with
  | nil => intro h; simp [List.findSome?] at h
  | cons x xs ih =>
    intro h
    rw [List.findSome?_cons] at h
    cases hf : f x with
    | some y =>
      rw [hf] at h
      cases h
      exact ⟨x, List.mem_cons_self _ _, hf⟩
    | none =>
      rw [hf] at h
      obtain ⟨a, ha, hfa⟩ := ih h
      exact ⟨a, List.mem_cons_of_mem _ ha, hfa⟩

theorem countG_map_token_part (toks : List String) :
    ((toks.map token_part).filter (fun p => isGroupPart p)).length
      = (toks.filter (fun t => isWildToken t)).length := by
  induction toks with
  | nil => rfl
  | cons t ts ih =>
    by_cases h1 : t = "*"
    · subst h1; simpa [token_part, isGroupPart, isWildToken] using ih
    · by_cases h2 : t = "_"
      · subst h2; simpa [token_part, isGroupPart, isWildToken] using ih
      · by_cases h3 : t = "#"
        · subst h3; simpa [token_part, isGroupPart, isWildToken] using ih
        · by_cases h4 : t = "^"
          · subst h4; simpa [token_part, isGroupPart, isWildToken] using ih
          · simpa [token_part, isGroupPart, isWildToken, h1, h2, h3, h4]
              using ih

/-- C6: whenever _pattern_match succeeds, the list of captured spans has
length exactly the number of wildcard tokens of the pattern (the regex has
one capturing group per wildcard token, in left-to-right order). -/
theorem pattern_match_stars_length (p input : String) (gs : List String)
    (sc : Nat) (h : pattern_match p input = (some gs, sc)) :
    gs.length = wildcard_count p := by
  rw [pattern_match_def] at h
  cases hfs : (List.range (leadWS input.toList + 1)).findSome?
      (fun i => matchParts ((pySplit p).map token_part)
        (input.toList.drop (leadWS input.toList - i))) with
  | some gs2 =>
    rw [hfs] at h
    obtain ⟨i, _, hmi⟩ := findSome?_mem hfs
    have hlen := matchParts_len _ _ _ hmi
    cases h
    rw [List.length_map, hlen, wildcard_count, countG_map_token_part]
  | none => rw [hfs] at h; cases h

theorem pattern_match_stars_length_witness :
    (["CAT", "DOG"] : List String).length = wildcard_count "* OR *" :=
  pattern_match_stars_length "* OR *" "CAT OR DOG" ["CAT", "DOG"] 12 (by decide)

/-
Claim C7: empty input.
-/

/-- Tokens produced by str.split() are never empty. -/
theorem pySplitAux_mem_ne :
    ∀ (cs acc : List Char), ∀ t ∈ pySplitAux cs acc, t ≠ "" := by
  intro cs
  induction cs with
  | nil =>
    intro acc t ht
    unfold pySplitAux at ht
    split at ht
    · simp at ht
    · rename_i hacc
      simp only [List.mem_singleton] at ht
      subst ht
      intro hcon
      apply hacc
      have : acc.reverse = [] := by
        have := congrArg String.data hcon
        simpa using this
      simpa using this
  | cons c cs ih =>
    intro acc t ht
    unfold pySplitAux at ht
    split at ht
    · split at ht
      · exact ih [] t ht
      · rename_i hacc
        rcases List.mem_cons.mp ht with rfl | ht2
        · intro hcon
          apply hacc
          have : acc.reverse = [] := by
            have := congrArg String.data hcon
            simpa using this
          simpa using this
        · exact ih [] t ht2
    · exact ih (c :: acc) t ht

theorem pySplit_mem_ne {s t : String} (ht : t ∈ pySplit s) : t ≠ "" :=
  pySplitAux_mem_ne s.toList [] t ht

theorem token_part_lit {t w : String} (h : token_part t = .lit w) : w = t := by
  unfold token_part at h
  split at h
  · exact absurd h (by simp)
  split at h
  · exact absurd h (by simp)
  split at h
  · exact absurd h (by simp)
  split at h
  · exact absurd h (by simp)
  injection h with h2
  exact h2.symm

theorem stripCI_nil_of_ne {w : String} (hw : w ≠ "") :
    stripCI w.toList [] = none := by
  obtain ⟨data⟩ := w
  cases data with
  | nil => exact absurd rfl hw
  | cons c cs => rfl

/-- A token sequence other than the empty one and the two singleton narrow
wildcards can never match the empty input: the built regex demands either a
literal word or a `\s+` separator or a nonempty capture. -/
theorem matchParts_empty_none (toks : List String)
    (h0 : toks ≠ []) (h1 : toks ≠ ["#"]) (h2 : toks ≠ ["^"])
    (hne : ∀ t ∈ toks, t ≠ "") :
    matchParts (toks.map token_part) [] = none := by
  match toks with
  | [] => exact absurd rfl h0
  | [t] =>
    have ht : t ≠ "" := hne t (by simp)
    by_cases e1 : t = "*"
    · subst e1; rfl
    by_cases e2 : t = "_"
    · subst e2; rfl
    by_cases e3 : t = "#"
    · exact absurd (by rw [e3]) h1
    by_cases e4 : t = "^"
    · exact absurd (by rw [e4]) h2
    have hlit : token_part t = .lit t := by
      unfold token_part
      rw [if_neg e1, if_neg e2, if_neg e3, if_neg e4]
    simp only [List.map_cons, List.map_nil, hlit, matchParts]
    rw [stripCI_nil_of_ne ht]
  | t1 :: t2 :: ts =>
    have ht : t1 ≠ "" := hne t1 (by simp)
    simp only [List.map_cons]
    cases hq : token_part t1 with
    | lit w =>
      have hw : w ≠ "" := by rw [token_part_lit hq]; exact ht
      simp only [matchParts]
      rw [stripCI_nil_of_ne hw]
    | group mo => cases mo <;> rfl

/-- On the empty input, _pattern_match fails for every pattern that is not
all-whitespace and not a lone narrow wildcard. -/
theorem pattern_match_empty_none (p : String)
    (h0 : pySplit p ≠ []) (h1 : pySplit p ≠ ["#"]) (h2 : pySplit p ≠ ["^"]) :
    pattern_match p "" = (none, 0) := by
  rw [pattern_match_def]
  have hm : matchParts ((pySplit p).map token_part) [] = none :=
    matchParts_empty_none _ h0 h1 h2 (fun t ht => pySplit_mem_ne ht)
  have hfs : (List.range (leadWS ("" : String).toList + 1)).findSome?
      (fun i => matchParts ((pySplit p).map token_part)
        (("" : String).toList.drop (leadWS ("" : String).toList - i)))
      = none := by
    simp [List.findSome?, hm]
  rw [hfs]

/-- A store in which every pattern has a token besides the degenerate
empty/lone-narrow-wildcard shapes never matches the empty input. -/
theorem match_pattern_empty (st : EngState)
    (h : ∀ c ∈ st.categories, pySplit c.pattern ≠ [] ∧
      pySplit c.pattern ≠ ["#"] ∧ pySplit c.pattern ≠ ["^"]) :
    match_pattern st "" = ⟨false, [], none⟩ := by
  unfold match_pattern
  suffices hh : ∀ (l : List Category) (acc : PatternMatch × Int),
      (∀ c ∈ l, pySplit c.pattern ≠ [] ∧ pySplit c.pattern ≠ ["#"] ∧
        pySplit c.pattern ≠ ["^"]) →
      l.foldl (mp_step st "") acc = acc by
    rw [hh st.categories _ h]
  intro l
  induction l with
  | nil => intro acc _; rfl
  | cons c cs ih =>
    intro acc hl
    rw [List.foldl_cons]
    have hc := hl c (by simp)
    have hstep : mp_step st "" acc c = acc := by
      unfold mp_step
      split
      · rfl
      split
      · rfl
      rw [pattern_match_empty_none c.pattern hc.1 hc.2.1 hc.2.2]
    rw [hstep]
    exact ih acc (fun x hx => hl x (List.mem_cons_of_mem _ hx))

/-- Equation for `respondStep` with the local lets expanded. -/
theorem respondStep_def (env : Env) (resp : Resp) (st : EngState)
    (input : String) :
    respondStep env resp st input =
      if (match_pattern st (normalize input)).matched then
        (process_template env resp
            ((match_pattern st (normalize input)).category.getD
              default).template
            (match_pattern st (normalize input)).stars st).bind
          (fun r =>
            .ok (some r.1,
                 { r.2 with
                   that := if r.1.text ≠ "" then sUpper r.1.text else "",
                   history := r.2.history ++ [(input, r.1.text)] }))
      else .ok (none, st) := rfl

/-- C7 counterexample: the claim quantifies over every category store, but a
store holding the degenerate pattern `#` does match the empty input: the
regex for a lone narrow wildcard is `^\s*(.*?)\s*$`, which accepts the empty
string with an empty capture, so respond returns a result (here the
template, not being well-formed XML for the stub parser, is echoed as plain
text) instead of the no-match signal. -/
theorem respond_empty_input_matches_hash :
    normalize "" = "" ∧
    respond env0 1 stHash ""
      = .ok (some { text := "HI" },
             { stHash with that := "HI", history := [("", "HI")] }) :=
  ⟨rfl, rfl⟩

/-- C7 (amended): empty input normalizes to the empty string, and the empty
string matches no category whose pattern tokenizes to anything other than
the empty token list or a lone narrow wildcard (`#` or `^`); for every store
free of those degenerate patterns, respond on any input with empty
normalization returns the no-match signal. -/
theorem respond_empty_input_no_match (env : Env) (fuel : Nat) (st : EngState)
    (input : String) (hn : normalize input = "")
    (h : ∀ c ∈ st.categories, pySplit c.pattern ≠ [] ∧
      pySplit c.pattern ≠ ["#"] ∧ pySplit c.pattern ≠ ["^"]) :
    respond env (fuel + 1) st input = .ok (none, st) := by
  show respondStep env (respond env fuel) st input = _
  rw [respondStep_def, hn, match_pattern_empty st h]
  rfl

def stW7 : EngState := { categories := [⟨"HELLO", "x", none, some "*"⟩] }

theorem respond_empty_input_no_match_witness :
    respond env0 1 stW7 "" = .ok (none, stW7) :=
  respond_empty_input_no_match env0 0 stW7 "" rfl (by decide)

/-
Claim C8: the scenario-C end-to-end match.
-/

/-- C8 counterexample: with the category pattern `* OR *`, the input
"cat or dog" does match, but matching operates on the uppercased normalized
input, so the captured spans are ["CAT", "DOG"], not the claimed
["cat", "dog"]. -/
theorem star_or_star_captures_not_lowercase :
    (match_pattern stOr (normalize "cat or dog")).matched = true ∧
    (match_pattern stOr (normalize "cat or dog")).stars = ["CAT", "DOG"] ∧
    (match_pattern stOr (normalize "cat or dog")).stars ≠ ["cat", "dog"] :=
  ⟨rfl, rfl, by decide⟩

/-- C8 (amended): the input "cat or dog" normalizes to "CAT OR DOG" and
matches the category pattern `* OR *` with captured spans exactly
["CAT", "DOG"] — the uppercase forms of the claimed captures. -/
theorem star_or_star_captures_uppercase :
    normalize "cat or dog" = "CAT OR DOG" ∧
    (match_pattern stOr (normalize "cat or dog")).matched = true ∧
    (match_pattern stOr (normalize "cat or dog")).stars = ["CAT", "DOG"] :=
  ⟨rfl, rfl, rfl⟩

/-
Claims C9 and C10: star-index range check and action-inputs parse failure.
-/

/-- C9: a star tag whose index attribute is numeric but outside 1..len(stars)
(in particular any index when the capture list is empty) contributes nothing:
the loop step for such a child leaves the output, state and result object
unchanged (appending only the child's tail text, as for every child) and
continues with the remaining children.  There is no out-of-bounds access and
no error. -/
theorem process_children_star_out_of_range (env : Env) (resp : Resp)
    (stars : List String) (s : String) (i : Int) (txt : Option String)
    (ch : List XElement) (tl : Option String) (fuel : Nat)
    (rest : List XElement) (out : List String) (st : EngState)
    (res : ActionResult) (hp : pyInt s = some i)
    (hout : i < 1 ∨ i > (stars.length : Int)) :
    process_children env resp stars (fuel + 1)
      (XElement.mk "star" [("index", s)] txt ch tl :: rest) out st res
    = process_children env resp stars fuel rest (tailAppend out tl) st res := by
  have hb : ¬(0 ≤ i - 1 ∧ i - 1 < (stars.length : Int)) := by omega
  have h1 : process_children env resp stars (fuel + 1)
      (XElement.mk "star" [("index", s)] txt ch tl :: rest) out st res
    = Out.bind
        (match pyInt s with
         | none => Out.err .valueError
         | some ix =>
           Out.ok (if 0 ≤ ix - 1 ∧ ix - 1 < (stars.length : Int) then
                     out ++ [stars.getD (ix - 1).toNat ""]
                   else out, st, res))
        (fun r => process_children env resp stars fuel rest
          (tailAppend r.1 tl) r.2.1 r.2.2) := rfl
  rw [h1, hp]
  have h2 : (match some i with
         | none => Out.err .valueError
         | some ix =>
           Out.ok (if 0 ≤ ix - 1 ∧ ix - 1 < (stars.length : Int) then
                     out ++ [stars.getD (ix - 1).toNat ""]
                   else out, st, res))
      = Out.ok ((out, st, res) : List String × EngState × ActionResult) := by
    show Out.ok (if 0 ≤ i - 1 ∧ i - 1 < (stars.length : Int) then
                   out ++ [stars.getD (i - 1).toNat ""]
                 else out, st, res) = _
    rw [if_neg hb]
  rw [h2]
  rfl

theorem process_children_star_out_of_range_witness :
    process_children env0 resp0 ["A"] 1
      (XElement.mk "star" [("index", "3")] none [] none :: []) [] stD resD
    = process_children env0 resp0 ["A"] 0 [] (tailAppend [] none) stD resD :=
  process_children_star_out_of_range env0 resp0 ["A"] "3" 3 none [] none 0
    [] [] stD resD (by decide) (by decide)

/-- C10: an action tag whose inputs attribute fails to parse as JSON after
capture substitution does not fail the evaluation: the loop step still sets
action to "workflow", carries the declared workflow name, stores the empty
map as the workflow inputs, emits the tag's own text content, and continues
with the remaining children. -/
theorem process_children_action_bad_json (env : Env) (resp : Resp)
    (stars : List String) (w istr : String) (txt : Option String)
    (tl : Option String) (fuel : Nat) (rest : List XElement)
    (out : List String) (st : EngState) (res : ActionResult)
    (hj : env.jsonParse (starSubst stars istr) = none) :
    process_children env resp stars (fuel + 2)
      (XElement.mk "action" [("workflow", w), ("inputs", istr)] txt [] tl
        :: rest) out st res
    = process_children env resp stars (fuel + 1) rest
        (tailAppend (out ++ [sTrim (String.join (textInit txt))]) tl) st
        { res with action := some "workflow", workflow := some w,
                   inputs := some [] } := by
  have h1 : process_children env resp stars (fuel + 2)
      (XElement.mk "action" [("workflow", w), ("inputs", istr)] txt [] tl
        :: rest) out st res
    = process_children env resp stars (fuel + 1) rest
        (tailAppend (out ++ [sTrim (String.join (textInit txt))]) tl) st
        { res with action := some "workflow", workflow := some w,
                   inputs := some ((env.jsonParse
                     (starSubst stars istr)).getD []) } := rfl
  rw [h1, hj]
  rfl

theorem process_children_action_bad_json_witness :
    process_children env0 resp0 [] 2
      (XElement.mk "action" [("workflow", "deploy"), ("inputs", "oops")]
        (some "Launching") [] none :: []) [] stD resD
    = process_children env0 resp0 [] 1 []
        (tailAppend ([] ++ [sTrim (String.join (textInit (some "Launching")))])
          none) stD
        { resD with action := some "workflow", workflow := some "deploy",
                    inputs := some [] } :=
  process_children_action_bad_json env0 resp0 [] "deploy" "oops"
    (some "Launching") none 0 [] [] stD resD rfl

end AIML
